import Mathlib

/-!
Verification of the note-taking API: an in-memory note store keyed by a
monotonically increasing integer id, consumed by an HTTP handler layer
(`internal/http/handlers/notes.go`).

The store (`repo.NoteRepoMem`) itself is not part of the provided sources;
its embedding below is modelled from the specification (§4.1). The handler
layer (`CreateNote`, `GetNote`, `GetAllNotes`, `PatchNote`, `DeleteNote`)
is embedded from the Go source.
-/

/-- The note entity: an id, a title and a content (`core.Note`). -/
structure Note where
  id : Int
  title : String
  content : String
deriving DecidableEq, Repr

/-- Modelled from the spec: the sparse field set passed to the store's
partial update — title and/or content, each independently present or
absent (the handler's `map[string]interface{}` with keys `"title"` and
`"content"`). -/
structure UpdateFields where
  title : Option String
  content : Option String
deriving DecidableEq, Repr

/-- Modelled from the spec: the in-memory store state — the notes in
insertion order plus the strictly increasing id counter (`NoteRepoMem`,
absent from the provided sources). -/
structure NoteStore where
  notes : List Note
  nextID : Int
deriving DecidableEq, Repr

/-- Modelled from the spec: a fresh store — no notes, id counter at 1. -/
def NoteStore.empty : NoteStore := ⟨[], 1⟩

/-- Modelled from the spec: `Create` assigns the next unused id (strictly
increasing counter, starting at 1), inserts a copy of the note under that
id, and returns the id. Never fails under normal operation. -/
def NoteStore.Create (s : NoteStore) (title content : String) : Int × NoteStore :=
  (s.nextID, ⟨s.notes ++ [⟨s.nextID, title, content⟩], s.nextID + 1⟩)

/-- Modelled from the spec: `GetByID` returns the note with the given id,
or signals `NotFound` (`none`). No side effects. -/
def NoteStore.GetByID (s : NoteStore) (id : Int) : Option Note :=
  s.notes.find? (fun n => n.id == id)

/-- Modelled from the spec: `GetAll` returns all notes currently present,
in insertion order, as a possibly empty sequence. Never signals `NotFound`. -/
def NoteStore.GetAll (s : NoteStore) : List Note := s.notes

/-- Whether a note with the given id is present in the store. -/
def NoteStore.contains (s : NoteStore) (id : Int) : Bool :=
  s.notes.any (fun n => n.id == id)

/-- Apply a sparse field set to a note: only the supplied attributes
change; absent attributes are left untouched; the id never changes. -/
def applyFields (f : UpdateFields) (n : Note) : Note :=
  { n with title := f.title.getD n.title, content := f.content.getD n.content }

/-- Modelled from the spec: `UpdatePartial` applies only the fields present
in `fields` to the note with the given id; signals `NotFound` (`none`) if
no note with that id exists, leaving the store unchanged. -/
def NoteStore.UpdatePartial (s : NoteStore) (id : Int) (f : UpdateFields) : Option NoteStore :=
  if s.contains id then
    some ⟨s.notes.map (fun n => if n.id == id then applyFields f n else n), s.nextID⟩
  else none

/-- Modelled from the spec: `Delete` removes the note with the given id;
signals `NotFound` (`none`) if absent. The id counter is not reset, so the
id is never reassigned by future `Create` calls. -/
def NoteStore.Delete (s : NoteStore) (id : Int) : Option NoteStore :=
  if s.contains id then
    some ⟨s.notes.filter (fun n => !(n.id == id)), s.nextID⟩
  else none

/-- The store's basic invariant: every id present was issued by the
counter, i.e. is strictly below `nextID`. Holds for `empty` and is
preserved by every operation. -/
def NoteStore.Wf (s : NoteStore) : Prop :=
  ∀ n ∈ s.notes, n.id < s.nextID

instance (s : NoteStore) : Decidable s.Wf := by
  unfold NoteStore.Wf; infer_instance

/-- A single-threaded driver issuing a sequence of `Create` calls,
collecting the returned ids and threading the store state. -/
def createAll (s : NoteStore) : List (String × String) → List Int × NoteStore
  | [] => ([], s)
  | (t, c) :: rest =>
    let r := s.Create t c
    let r' := createAll r.2 rest
    (r.1 :: r'.1, r'.2)

/-- The handler layer's outcome, abstracting the HTTP status / JSON body
pairs written by `respondWithJSON` / `respondWithError` in `notes.go`. -/
inductive HResp where
  | created : Note → HResp
  | okNote : Note → HResp
  | okNotes : List Note → HResp
  | okMessage : String → HResp
  | badRequest : String → HResp
  | notFound : String → HResp
  | internalError : String → HResp
deriving DecidableEq, Repr

/-- `UpdateNoteRequest` from `notes.go`: pointer fields decode to `none`
when the JSON field is absent and `some v` when present (even if empty). -/
structure UpdateNoteRequest where
  title : Option String
  content : Option String
deriving DecidableEq, Repr

/-- Go's `unicode.IsSpace`: the Unicode White_Space property — `'\t'`,
`'\n'`, `'\v'`, `'\f'`, `'\r'`, `' '`, U+0085 (NEL), U+00A0 (NBSP),
U+1680, U+2000..U+200A, U+2028, U+2029, U+202F, U+205F and U+3000. -/
def isSpace (c : Char) : Bool :=
  (0x09 ≤ c.toNat && c.toNat ≤ 0x0D) || c.toNat == 0x20 ||
  c.toNat == 0x85 || c.toNat == 0xA0 || c.toNat == 0x1680 ||
  (0x2000 ≤ c.toNat && c.toNat ≤ 0x200A) || c.toNat == 0x2028 ||
  c.toNat == 0x2029 || c.toNat == 0x202F || c.toNat == 0x205F ||
  c.toNat == 0x3000

/-- Go's `strings.TrimSpace`, embedded over the character list: the string
with leading and trailing `unicode.IsSpace` characters removed. -/
def trimSpace (s : String) : String :=
  ⟨((s.data.dropWhile isSpace).reverse.dropWhile isSpace).reverse⟩

/-- The handlers' blank test: `strings.TrimSpace(s) == ""`. -/
def isBlank (s : String) : Bool := trimSpace s == ""

/-- `Handler.CreateNote` from `notes.go` (after JSON decoding): rejects a
blank title, otherwise calls `Create` then re-reads via `GetByID`. -/
def CreateNote (s : NoteStore) (title content : String) : HResp × NoteStore :=
  if isBlank title then (.badRequest "Title is required", s)
  else
    let r := s.Create title content
    match r.2.GetByID r.1 with
    | some created => (.created created, r.2)
    | none => (.internalError "Failed to retrieve created note", r.2)

/-- `Handler.GetNote` from `notes.go` (after id parsing): maps the store's
`NotFound` to a 404 response. -/
def GetNote (s : NoteStore) (id : Int) : HResp × NoteStore :=
  match s.GetByID id with
  | some n => (.okNote n, s)
  | none => (.notFound "Note not found", s)

/-- `Handler.GetAllNotes` from `notes.go`: returns the full listing; a nil
slice is replaced by the empty slice before responding. -/
def GetAllNotes (s : NoteStore) : HResp × NoteStore :=
  (.okNotes s.GetAll, s)

/-- `Handler.PatchNote` from `notes.go` (after id parsing and JSON
decoding): rejects an empty field set, rejects a supplied blank title,
builds the update map with exactly the supplied fields, calls
`UpdatePartial`, and re-reads via `GetByID`. -/
def PatchNote (s : NoteStore) (id : Int) (update : UpdateNoteRequest) : HResp × NoteStore :=
  if update.title.isNone && update.content.isNone then
    (.badRequest "No fields to update", s)
  else if update.title.any isBlank then
    (.badRequest "Title cannot be empty", s)
  else
    match s.UpdatePartial id ⟨update.title, update.content⟩ with
    | none => (.notFound "Note not found", s)
    | some s' =>
      match s'.GetByID id with
      | some n => (.okNote n, s')
      | none => (.internalError "Failed to retrieve updated note", s')

/-- `Handler.DeleteNote` from `notes.go` (after id parsing): maps the
store's `NotFound` to a 404, success to an acknowledgement message. -/
def DeleteNote (s : NoteStore) (id : Int) : HResp × NoteStore :=
  match s.Delete id with
  | none => (.notFound "Note not found", s)
  | some s' => (.okMessage "Note deleted successfully", s')

/-! ### Supporting lemmas -/

lemma updater_id (f : UpdateFields) (id : Int) (n : Note) :
    (if n.id == id then applyFields f n else n).id = n.id := by
  unfold applyFields; split <;> rfl

lemma wf_empty : NoteStore.empty.Wf := by
  intro n hn; simp [NoteStore.empty] at hn

lemma wf_create (s : NoteStore) (t c : String) (h : s.Wf) : (s.Create t c).2.Wf := by
  intro n hn
  simp only [NoteStore.Create, List.mem_append, List.mem_singleton] at hn ⊢
  rcases hn with hn | rfl
  · have := h n hn; omega
  · show s.nextID < s.nextID + 1; omega

lemma find?_front_none {α} (p : α → Bool) (l₁ l₂ : List α)
    (h : l₁.find? p = none) : (l₁ ++ l₂).find? p = l₂.find? p := by
  rw [List.find?_append, h, Option.none_or]

lemma contains_of_getByID {s : NoteStore} {id : Int} {n : Note}
    (h : s.GetByID id = some n) : s.contains id = true := by
  unfold NoteStore.GetByID at h
  unfold NoteStore.contains
  have hmem : n ∈ s.notes := List.mem_of_find?_eq_some h
  have hp := List.find?_some h
  exact List.any_eq_true.mpr ⟨n, hmem, hp⟩

lemma getByID_after_update {s : NoteStore} {id : Int} {f : UpdateFields} {s' : NoteStore}
    (h : s.UpdatePartial id f = some s') (j : Int) :
    s'.GetByID j = (s.GetByID j).map (fun n => if n.id == id then applyFields f n else n) := by
  unfold NoteStore.UpdatePartial at h
  split at h
  · cases h
    unfold NoteStore.GetByID
    rw [List.find?_map]
    have hp : ((fun n : Note => n.id == j) ∘ fun n => if n.id == id then applyFields f n else n)
        = fun n : Note => n.id == j := by
      funext n
      simp only [Function.comp]
      by_cases hn : (n.id == id) = true
      · simp [hn, applyFields]
      · simp [hn]
    rw [hp]
  · cases h

lemma createAll_nextID (ps : List (String × String)) (s : NoteStore) :
    (createAll s ps).2.nextID = s.nextID + ps.length := by
  induction ps generalizing s with
  | nil => simp [createAll]
  | cons p rest ih =>
    obtain ⟨t, c⟩ := p
    simp only [createAll, NoteStore.Create, List.length_cons]
    rw [ih]
    show s.nextID + 1 + (rest.length : Int) = s.nextID + ((rest.length : Int) + 1)
    omega

lemma createAll_ids_lb (ps : List (String × String)) (s : NoteStore) :
    ∀ k ∈ (createAll s ps).1, s.nextID ≤ k := by
  induction ps generalizing s with
  | nil => simp [createAll]
  | cons p rest ih =>
    obtain ⟨t, c⟩ := p
    intro k hk
    simp only [createAll, NoteStore.Create, List.mem_cons] at hk
    rcases hk with rfl | hk
    · exact le_refl _
    · have h2 := ih _ k hk
      change s.nextID + 1 ≤ k at h2
      omega

lemma createAll_pairwise (ps : List (String × String)) (s : NoteStore) :
    (createAll s ps).1.Pairwise (· < ·) := by
  induction ps generalizing s with
  | nil => simp [createAll]
  | cons p rest ih =>
    obtain ⟨t, c⟩ := p
    simp only [createAll, List.pairwise_cons]
    refine ⟨?_, ih _⟩
    intro k hk
    have hlb := createAll_ids_lb rest _ k hk
    simp only [NoteStore.Create] at hlb ⊢
    omega

lemma find?_filter_of_imp {α} (p q : α → Bool) (l : List α)
    (h : ∀ x, p x = true → q x = true) : (l.filter q).find? p = l.find? p := by
  induction l with
  | nil => rfl
  | cons a t ih =>
    by_cases hq : q a = true
    · rw [List.filter_cons_of_pos hq]
      by_cases hp : p a = true
      · rw [List.find?_cons_of_pos _ hp, List.find?_cons_of_pos _ hp]
      · rw [List.find?_cons_of_neg _ hp, List.find?_cons_of_neg _ hp, ih]
    · have hp : ¬ p a = true := fun hpa => hq (h a hpa)
      rw [List.filter_cons_of_neg (by simpa using hq), List.find?_cons_of_neg _ hp, ih]

/-! ### Claims -/

/-- C1: for every note with a non-blank title, `Create` returning id `k`
followed by `GetByID k` returns a note with the same title and content and
with id `k` (on any store satisfying the counter invariant). -/
theorem create_then_get_roundtrip (s : NoteStore) (title content : String)
    (hwf : s.Wf) (_ht : isBlank title = false) :
    (s.Create title content).2.GetByID (s.Create title content).1 =
      some ⟨(s.Create title content).1, title, content⟩ := by
  simp only [NoteStore.Create, NoteStore.GetByID]
  have hfront : s.notes.find? (fun n => n.id == s.nextID) = none := by
    refine List.find?_eq_none.mpr ?_
    intro n hn
    have := hwf n hn
    simp only [beq_iff_eq]
    omega
  rw [find?_front_none _ _ _ hfront]
  simp [List.find?]

theorem create_then_get_roundtrip_witness :
    NoteStore.empty.Wf ∧ isBlank "a" = false ∧
    (NoteStore.empty.Create "a" "b").2.GetByID (NoteStore.empty.Create "a" "b").1 =
      some ⟨(NoteStore.empty.Create "a" "b").1, "a", "b"⟩ :=
  ⟨by decide, by decide,
    create_then_get_roundtrip NoteStore.empty "a" "b" (by decide) (by decide)⟩

/-- C2: `GetByID`, `UpdatePartial` and `Delete` signal `NotFound` exactly
when no note with the id is present, and the handler's 404 on `GetNote`
mirrors it; `none` is their only failure outcome. -/
theorem notFound_iff_absent (s : NoteStore) (id : Int) (f : UpdateFields) :
    (s.GetByID id = none ↔ s.contains id = false) ∧
    (s.UpdatePartial id f = none ↔ s.contains id = false) ∧
    (s.Delete id = none ↔ s.contains id = false) ∧
    ((GetNote s id).1 = HResp.notFound "Note not found" ↔ s.contains id = false) := by
  have h1 : s.GetByID id = none ↔ s.contains id = false := by
    simp [NoteStore.GetByID, NoteStore.contains, List.find?_eq_none, List.any_eq_false]
  refine ⟨h1, ?_, ?_, ?_⟩
  · unfold NoteStore.UpdatePartial
    cases hc : s.contains id <;> simp [hc]
  · unfold NoteStore.Delete
    cases hc : s.contains id <;> simp [hc]
  · unfold GetNote
    cases hget : s.GetByID id with
    | none => simp [h1.mp hget]
    | some n => simp [contains_of_getByID hget]

/-- C3: a single-threaded sequence of `Create` calls from a fresh store
yields pairwise distinct, strictly increasing ids, the first being 1. -/
theorem create_ids_distinct_increasing (ps : List (String × String)) (h : ps ≠ []) :
    (createAll NoteStore.empty ps).1.Pairwise (· < ·) ∧
    (createAll NoteStore.empty ps).1.head? = some 1 := by
  refine ⟨createAll_pairwise ps NoteStore.empty, ?_⟩
  cases ps with
  | nil => exact absurd rfl h
  | cons p rest =>
    obtain ⟨t, c⟩ := p
    simp [createAll, NoteStore.Create, NoteStore.empty]

theorem create_ids_distinct_increasing_witness :
    ([("a", "x"), ("b", "y")] : List (String × String)) ≠ [] ∧
    ((createAll NoteStore.empty [("a", "x"), ("b", "y")]).1.Pairwise (· < ·) ∧
     (createAll NoteStore.empty [("a", "x"), ("b", "y")]).1.head? = some 1) :=
  ⟨by decide, create_ids_distinct_increasing [("a", "x"), ("b", "y")] (by decide)⟩

lemma getByID_id_eq {s : NoteStore} {j : Int} {n : Note}
    (h : s.GetByID j = some n) : n.id = j := by
  unfold NoteStore.GetByID at h
  have := List.find?_some h
  simpa using this

/-- C4: a successful `UpdatePartial` changes only the supplied fields:
lookups of other ids are unchanged, and an absent title (resp. content)
field leaves the note's title (resp. content) as it was. -/
theorem updatePartial_frame (s : NoteStore) (id : Int) (f : UpdateFields) (s' : NoteStore)
    (h : s.UpdatePartial id f = some s') :
    (∀ j, j ≠ id → s'.GetByID j = s.GetByID j) ∧
    (f.title = none → (s'.GetByID id).map Note.title = (s.GetByID id).map Note.title) ∧
    (f.content = none → (s'.GetByID id).map Note.content = (s.GetByID id).map Note.content) := by
  refine ⟨?_, ?_, ?_⟩
  · intro j hj
    rw [getByID_after_update h j]
    cases hfind : s.GetByID j with
    | none => rfl
    | some n =>
      have hid := getByID_id_eq hfind
      have hcond : ¬ ((n.id == id) = true) := by simp [hid, hj]
      simp only [Option.map_some', if_neg hcond]
  · intro htitle
    rw [getByID_after_update h id]
    cases hfind : s.GetByID id with
    | none => rfl
    | some n =>
      have hid := getByID_id_eq hfind
      simp [hid, applyFields, htitle]
  · intro hcontent
    rw [getByID_after_update h id]
    cases hfind : s.GetByID id with
    | none => rfl
    | some n =>
      have hid := getByID_id_eq hfind
      simp [hid, applyFields, hcontent]

theorem updatePartial_frame_witness :
    (NoteStore.mk [⟨1, "A", "x"⟩] 2).UpdatePartial 1 ⟨none, some "z"⟩ =
      some (NoteStore.mk [⟨1, "A", "z"⟩] 2) ∧
    ((NoteStore.mk [⟨1, "A", "z"⟩] 2).GetByID 1).map Note.title =
      ((NoteStore.mk [⟨1, "A", "x"⟩] 2).GetByID 1).map Note.title :=
  ⟨by decide, (updatePartial_frame _ 1 ⟨none, some "z"⟩ _ (by decide)).2.1 rfl⟩

/-- C5: after a successful `Delete id`, `GetByID id` signals `NotFound`,
every other id's lookup is unaffected, and no future sequence of `Create`
calls ever returns `id` again. -/
theorem delete_finality (s : NoteStore) (id : Int) (s' : NoteStore)
    (hwf : s.Wf) (h : s.Delete id = some s') :
    s'.GetByID id = none ∧
    (∀ j, j ≠ id → s'.GetByID j = s.GetByID j) ∧
    (∀ ps : List (String × String), id ∉ (createAll s' ps).1) := by
  unfold NoteStore.Delete at h
  split at h
  case isTrue hc =>
    obtain rfl := Option.some.inj h
    refine ⟨?_, ?_, ?_⟩
    · refine List.find?_eq_none.mpr ?_
      intro x hx
      have hmem := List.mem_filter.mp hx
      simpa using hmem.2
    · intro j hj
      show (List.filter _ s.notes).find? _ = s.notes.find? _
      refine find?_filter_of_imp _ _ _ ?_
      intro x hpx
      have hx : x.id = j := by simpa using hpx
      simp [hx, hj]
    · intro ps hk
      have hlb := createAll_ids_lb ps _ id hk
      change s.nextID ≤ id at hlb
      unfold NoteStore.contains at hc
      obtain ⟨n, hn, hpn⟩ := List.any_eq_true.mp hc
      have hnid : n.id = id := by simpa using hpn
      have := hwf n hn
      omega
  case isFalse hc => cases h

theorem delete_finality_witness :
    (NoteStore.mk [⟨1, "A", "x"⟩] 2).Wf ∧
    (NoteStore.mk [⟨1, "A", "x"⟩] 2).Delete 1 = some (NoteStore.mk [] 2) ∧
    (NoteStore.mk [] 2).GetByID 1 = none :=
  ⟨by decide, by decide,
    (delete_finality (NoteStore.mk [Note.mk 1 "A" "x"] 2) 1 (NoteStore.mk [] 2)
      (by decide) (by decide)).1⟩

/-- C6: `GetAll` returns exactly the notes currently present, in insertion
order, as a possibly empty sequence; on an empty store it is the empty
sequence, and the handler never turns it into a `NotFound`. -/
theorem getAll_complete (s : NoteStore) :
    s.GetAll = s.notes ∧ (∀ n, n ∈ s.GetAll ↔ n ∈ s.notes) ∧
    NoteStore.empty.GetAll = [] ∧ (GetAllNotes s).1 = HResp.okNotes s.notes :=
  ⟨rfl, fun _ => Iff.rfl, rfl, rfl⟩

/-- C7: `UpdatePartial` is atomic: either the id is absent and it signals
`NotFound` producing no new state, or it succeeds and every supplied field
is applied to the target note (counter untouched) — never a partial
application. -/
theorem updatePartial_atomic (s : NoteStore) (id : Int) (f : UpdateFields) :
    (s.UpdatePartial id f = none ∧ s.contains id = false) ∨
    (∃ s', s.UpdatePartial id f = some s' ∧ s'.nextID = s.nextID ∧
      ∀ n ∈ s.notes, n.id = id →
        (⟨n.id, f.title.getD n.title, f.content.getD n.content⟩ : Note) ∈ s'.notes) := by
  by_cases hc : s.contains id = true
  · right
    refine ⟨⟨s.notes.map (fun n => if n.id == id then applyFields f n else n), s.nextID⟩,
      ?_, rfl, ?_⟩
    · unfold NoteStore.UpdatePartial
      rw [if_pos hc]
    · intro n hn hnid
      have hu : (⟨n.id, f.title.getD n.title, f.content.getD n.content⟩ : Note) =
          (fun n : Note => if n.id == id then applyFields f n else n) n := by
        simp [hnid, applyFields]
      rw [hu]
      exact List.mem_map_of_mem _ hn
  · left
    refine ⟨?_, by simpa using hc⟩
    unfold NoteStore.UpdatePartial
    rw [if_neg hc]

/-- C8: the handler layer rejects a supplied blank title before the store
is invoked: `CreateNote` answers "Title is required" and `PatchNote`
answers "Title cannot be empty", both leaving the store untouched. -/
theorem blank_title_rejected (s : NoteStore) (id : Int) (content : String)
    (t : String) (req : UpdateNoteRequest)
    (hblank : isBlank t = true) (hreq : req.title = some t) :
    CreateNote s t content = (HResp.badRequest "Title is required", s) ∧
    PatchNote s id req = (HResp.badRequest "Title cannot be empty", s) := by
  constructor
  · unfold CreateNote
    rw [if_pos hblank]
  · unfold PatchNote
    have h1 : ¬ ((req.title.isNone && req.content.isNone) = true) := by simp [hreq]
    have h2 : req.title.any isBlank = true := by simp [hreq, hblank]
    rw [if_neg h1, if_pos h2]

theorem blank_title_rejected_witness :
    isBlank " \u00A0\t" = true ∧
    (UpdateNoteRequest.mk (some " \u00A0\t") none).title = some " \u00A0\t" ∧
    (CreateNote NoteStore.empty " \u00A0\t" "c" =
       (HResp.badRequest "Title is required", NoteStore.empty) ∧
     PatchNote NoteStore.empty 1 (UpdateNoteRequest.mk (some " \u00A0\t") none) =
       (HResp.badRequest "Title cannot be empty", NoteStore.empty)) :=
  ⟨by decide, rfl,
    blank_title_rejected NoteStore.empty 1 "c" " \u00A0\t" _ (by decide) rfl⟩

/-- C9: a partial-update request supplying neither field is rejected with
"No fields to update" and the store is never invoked (state unchanged), so
`UpdatePartial` is never reached with an empty field set. -/
theorem no_fields_rejected (s : NoteStore) (id : Int) (req : UpdateNoteRequest)
    (h1 : req.title = none) (h2 : req.content = none) :
    PatchNote s id req = (HResp.badRequest "No fields to update", s) := by
  have hc : (req.title.isNone && req.content.isNone) = true := by simp [h1, h2]
  unfold PatchNote
  rw [if_pos hc]

theorem no_fields_rejected_witness :
    (UpdateNoteRequest.mk none none).title = none ∧
    (UpdateNoteRequest.mk none none).content = none ∧
    PatchNote NoteStore.empty 1 (UpdateNoteRequest.mk none none) =
      (HResp.badRequest "No fields to update", NoteStore.empty) :=
  ⟨rfl, rfl, no_fields_rejected NoteStore.empty 1 (UpdateNoteRequest.mk none none) rfl rfl⟩

lemma patchNote_succeeds {s : NoteStore} {id : Int} {n : Note} (hn : s.GetByID id = some n)
    (u : UpdateNoteRequest) (hne : (u.title.isNone && u.content.isNone) = false)
    (hblank : u.title.any isBlank = false) :
    (PatchNote s id u).2.GetByID id = some (applyFields ⟨u.title, u.content⟩ n) := by
  have hc : s.contains id = true := contains_of_getByID hn
  have hup : s.UpdatePartial id ⟨u.title, u.content⟩ =
      some ⟨s.notes.map
        (fun m => if m.id == id then applyFields ⟨u.title, u.content⟩ m else m), s.nextID⟩ := by
    unfold NoteStore.UpdatePartial
    rw [if_pos hc]
  have hkey : (⟨s.notes.map
        (fun m => if m.id == id then applyFields ⟨u.title, u.content⟩ m else m),
        s.nextID⟩ : NoteStore).GetByID id = some (applyFields ⟨u.title, u.content⟩ n) := by
    rw [getByID_after_update hup id, hn]
    have hid : n.id = id := getByID_id_eq hn
    simp [hid]
  unfold PatchNote
  rw [if_neg (by simp [hne]), if_neg (by simp [hblank])]
  simp only [hup, hkey]

/-- C10: the update request distinguishes absent from present-but-empty
fields: content supplied as the empty string is applied (the content
becomes empty, the title stays), while an absent content field leaves the
content untouched (here under a title-only update). -/
theorem update_request_field_presence (s : NoteStore) (id : Int) (n : Note) (t : String)
    (hn : s.GetByID id = some n) (ht : isBlank t = false) :
    (PatchNote s id (UpdateNoteRequest.mk none (some ""))).2.GetByID id =
      some (Note.mk n.id n.title "") ∧
    (PatchNote s id (UpdateNoteRequest.mk (some t) none)).2.GetByID id =
      some (Note.mk n.id t n.content) := by
  constructor
  · have hp := patchNote_succeeds hn (UpdateNoteRequest.mk none (some "")) (by simp) (by simp)
    rw [hp]
    simp [applyFields]
  · have hp := patchNote_succeeds hn (UpdateNoteRequest.mk (some t) none) (by simp) (by simp [ht])
    rw [hp]
    simp [applyFields]

theorem update_request_field_presence_witness :
    (NoteStore.mk [Note.mk 1 "A" "x"] 2).GetByID 1 = some (Note.mk 1 "A" "x") ∧
    isBlank "B" = false ∧
    ((PatchNote (NoteStore.mk [Note.mk 1 "A" "x"] 2) 1
        (UpdateNoteRequest.mk none (some ""))).2.GetByID 1 = some (Note.mk 1 "A" "") ∧
     (PatchNote (NoteStore.mk [Note.mk 1 "A" "x"] 2) 1
        (UpdateNoteRequest.mk (some "B") none)).2.GetByID 1 = some (Note.mk 1 "B" "x")) :=
  ⟨by decide, by decide,
    update_request_field_presence (NoteStore.mk [Note.mk 1 "A" "x"] 2) 1
      (Note.mk 1 "A" "x") "B" (by decide) (by decide)⟩
